import Mathlib

/-!
# Verification of the jackal.nodejs encrypted envelope codec and folder tree model

Shallow embedding of the core of the `jackal.nodejs` library:

* the symmetric envelope codec (`aesCrypt`, `convertToEncryptedFile` and
  `convertFromEncryptedFile` from the crypt utility module),
* the key-wrapping helpers (`aesToString` / `stringToAes`),
* the folder tree model (`FolderHandler` and its mutation methods).

Byte buffers (`Buffer` / `Uint8Array`) are modelled as `List Nat` whose
elements are byte values; JS strings appearing inside the codec are modelled
as `List Char` (for splitting/scanning) or `String`.  `CryptoKey` objects are
modelled by their raw exported bytes (`subtle.exportKey('raw', ·)`), which is
how the library itself persists them.

The WebCrypto AES-256-GCM primitive (`subtle.encrypt` / `subtle.decrypt`) is
an external collaborator of the library; it is modelled by an executable toy
cipher that reproduces the externally observable contract relied upon by the
code and its specification: ciphertext = masked plaintext followed by a
16-byte authentication tag, decryption inverts encryption under the same
key/iv and rejects a bad tag.
-/

namespace Jackal

/-! ## Model of the external AES-256-GCM primitive (WebCrypto `subtle`) -/

/-- One keystream byte of the toy AES-GCM model, derived from key, iv and
stream position.  Stands in for the AES-CTR keystream of GCM. -/
def ksByte (key iv n : Nat) : Nat :=
  (key * 131 + iv * 89 + n * 17 + 11) % 256

/-- Mask a buffer with the keystream starting at position `n` (XOR).  This is
its own inverse, as the real CTR mask is. -/
def maskBytes (key iv : Nat) : Nat → List Nat → List Nat
  | _, [] => []
  | n, b :: bs => (b ^^^ ksByte key iv n) :: maskBytes key iv (n + 1) bs

/-- The 16-byte authentication tag of the toy AES-GCM model: a keyed digest of
the ciphertext (its length and trailing bytes).  Stands in for the GHASH tag. -/
def gcmTag (key iv : Nat) (ct : List Nat) : List Nat :=
  (List.range 16).map fun j =>
    (key + iv + ct.length + ct.getD (ct.length - 16 + j) 0 + j) % 256

/-- Model of `subtle.encrypt({name:'AES-GCM', iv}, key, data)`: the masked
plaintext followed by the 16-byte authentication tag. -/
def gcmEncrypt (key iv : Nat) (pt : List Nat) : List Nat :=
  let ct := maskBytes key iv 0 pt
  ct ++ gcmTag key iv ct

/-- Model of `subtle.decrypt({name:'AES-GCM', iv}, key, data)`: checks the
trailing 16-byte tag and unmasks the body; rejects with `OperationError`
(as WebCrypto does) if the data is too short or the tag does not verify. -/
def gcmDecrypt (key iv : Nat) (data : List Nat) : Except String (List Nat) :=
  if data.length < 16 then .error "OperationError"
  else
    let ct := data.take (data.length - 16)
    let tag := data.drop (data.length - 16)
    if tag = gcmTag key iv ct then .ok (maskBytes key iv 0 ct)
    else .error "OperationError"

/-! ## `aesCrypt` (src/unnamed/part_000, lines 56-89)

```ts
export async function aesCrypt (data, key, iv, mode) {
  const algo = { name: 'AES-GCM', iv }
  if (data.byteLength < 1) {
    return Buffer.from([])
  } else if (mode?.toLowerCase() === 'encrypt') {
    return await subtle.encrypt(algo, key, data).then(...).catch(...)
  } else {
    return await subtle.decrypt(algo, key, data).then(...).catch(...)
  }
}
```

The TypeScript annotation restricts `mode` to `'encrypt' | 'decrypt'`, but at
runtime any string may reach the function, so `mode` is modelled as `String`.
The `.catch` handlers log and re-throw, so failures propagate to the caller
unchanged; fallible results are `Except String`. -/

/-- `String.prototype.toLowerCase` on one character, for the ASCII strings
that can reach `aesCrypt`'s `mode` argument. -/
def jsToLowerChar (c : Char) : Char :=
  if 'A' ≤ c ∧ c ≤ 'Z' then Char.ofNat (c.toNat + 32) else c

/-- `String.prototype.toLowerCase` (ASCII). -/
def jsToLower (s : String) : String :=
  String.mk (s.data.map jsToLowerChar)

/-- Embedding of `aesCrypt`. -/
def aesCrypt (data : List Nat) (key iv : Nat) (mode : String) :
    Except String (List Nat) :=
  if data.length < 1 then .ok []
  else if jsToLower mode = "encrypt" then .ok (gcmEncrypt key iv data)
  else gcmDecrypt key iv data

/-- Instrumented twin of `aesCrypt` with identical branch structure that also
counts how many times the underlying cipher (`subtle.encrypt`/`decrypt`) is
invoked. -/
def aesCryptTraced (data : List Nat) (key iv : Nat) (mode : String) :
    Except String (List Nat) × Nat :=
  if data.length < 1 then (.ok [], 0)
  else if jsToLower mode = "encrypt" then (.ok (gcmEncrypt key iv data), 1)
  else (gcmDecrypt key iv data, 1)

/-- The instrumented twin computes the same result as `aesCrypt`. -/
theorem aesCryptTraced_fst (data : List Nat) (key iv : Nat) (mode : String) :
    (aesCryptTraced data key iv mode).1 = aesCrypt data key iv mode := by
  unfold aesCryptTraced aesCrypt
  split <;> [rfl; split <;> rfl]

/-! ### Basic cipher-model lemmas -/

theorem maskBytes_length (key iv : Nat) :
    ∀ (n : Nat) (l : List Nat), (maskBytes key iv n l).length = l.length := by
  intro n l
  induction l generalizing n with
  | nil => rfl
  | cons b bs ih => simp [maskBytes, ih]

theorem maskBytes_maskBytes (key iv : Nat) :
    ∀ (n : Nat) (l : List Nat), maskBytes key iv n (maskBytes key iv n l) = l := by
  intro n l
  induction l generalizing n with
  | nil => rfl
  | cons b bs ih =>
    simp only [maskBytes, ih]
    rw [Nat.xor_assoc, Nat.xor_self, Nat.xor_zero]

theorem gcmTag_length (key iv : Nat) (ct : List Nat) :
    (gcmTag key iv ct).length = 16 := by
  simp [gcmTag]

theorem gcmEncrypt_length (key iv : Nat) (pt : List Nat) :
    (gcmEncrypt key iv pt).length = pt.length + 16 := by
  simp [gcmEncrypt, maskBytes_length, gcmTag_length]

/-- The toy cipher round-trips: decrypting an encryption under the same
key/iv recovers the plaintext. -/
theorem gcmDecrypt_gcmEncrypt (key iv : Nat) (pt : List Nat) :
    gcmDecrypt key iv (gcmEncrypt key iv pt) = .ok pt := by
  have hlen : (gcmEncrypt key iv pt).length = pt.length + 16 :=
    gcmEncrypt_length key iv pt
  have hmask : (maskBytes key iv 0 pt).length = pt.length :=
    maskBytes_length key iv 0 pt
  unfold gcmDecrypt
  rw [if_neg (by omega)]
  show (if _ = _ then _ else _) = _
  rw [hlen, Nat.add_sub_cancel]
  unfold gcmEncrypt
  rw [← hmask, List.take_left, List.drop_left, if_pos rfl,
    maskBytes_maskBytes]

/-! ## String and byte helpers shared by the codec -/

/-- UTF-8/ASCII bytes of a string (the codec only ever serializes ASCII JSON
and ASCII decimal headers, where `Buffer.from(s)` is the code-point bytes). -/
def strBytes (s : String) : List Nat :=
  s.data.map Char.toNat

/-- Bytes back to a string, the model of `buffer.toString()` on ASCII data. -/
def bytesToChars (bs : List Nat) : List Char :=
  bs.map Char.ofNat

/-- Model of JS `Number(str)` restricted to the strings the codec meets:
a non-empty all-digit string parses to its decimal value, the empty string
parses to `0` (as `Number('')` does), anything else is `NaN` (`none`).
The input is given as the byte values of the characters. -/
def jsNumberBytes (bs : List Nat) : Option Nat :=
  if bs.all fun b => 48 ≤ b ∧ b ≤ 57 then
    some (bs.foldl (fun acc b => acc * 10 + (b - 48)) 0)
  else none

/-- `(n.toString()).padStart(8, '0')` as bytes: the 8-byte ASCII decimal
length header of a frame (longer than 8 bytes if `n` has more digits). -/
def pad8 (n : Nat) : List Nat :=
  let s := Nat.repr n
  strBytes (String.mk (List.replicate (8 - s.length) '0') ++ s)

/-! ## The file model

A JS `File` as the codec reads it: a name, `lastModified`, a MIME `type`
and its content bytes; `file.size` is the content length and
`file.slice(i, j).arrayBuffer()` yields the content bytes in `[i, j)`. -/

/-- The relevant observable state of a JS `File` passed to the codec. -/
structure JsFile where
  name : String
  lastModified : Nat
  type : String
  content : List Nat
  deriving Repr, DecidableEq

/-- `file.size`. -/
def JsFile.size (f : JsFile) : Nat := f.content.length

/-- `JSON.stringify({ name, lastModified, type, size })` for the detail
record built by `convertToEncryptedFile` (names and types in this library
contain no characters needing JSON escapes, which the model assumes). -/
def stringifyDetails (f : JsFile) : String :=
  "\x7b\"name\":\"" ++ f.name ++ "\",\"lastModified\":" ++ Nat.repr f.lastModified
    ++ ",\"type\":\"" ++ f.type ++ "\",\"size\":" ++ Nat.repr f.size ++ "\x7d"

/-- Modelled from the spec: `hashAndHex` (utils/hash, not under src/) is the
deterministic hex digest used to derive the uploaded file's name from the
original name and the current timestamp. -/
def hashAndHex (s : String) : String :=
  Nat.toDigits 16 (s.data.foldl (fun a c => (a * 31 + c.toNat) % 1000000007) 7)
    |>.asString

/-- The chunk size of the encoder: `32 * Math.pow(1024, 2)` bytes. -/
def chunkSize : Nat := 32 * 1024 * 1024

/-- The encoder's chunking loop
`for (let i = 0; i < workingFile.size; i += chunkSize)` with
`workingFile.slice(i, i + chunkSize)`: successive `chunkSize`-byte slices of
the content; a file of size 0 yields no chunks.  Structural recursion on a
fuel argument (each iteration removes at least one byte, so `l.length` fuel
always suffices and the fuel-exhausted branch is unreachable). -/
def chunksOfF : Nat → List Nat → List (List Nat)
  | _, [] => []
  | 0, _ :: _ => []
  | fuel + 1, x :: xs =>
    (x :: xs).take chunkSize :: chunksOfF fuel ((x :: xs).drop chunkSize)

/-- The chunk list of the encoder's loop. -/
def chunksOf (l : List Nat) : List (List Nat) :=
  chunksOfF l.length l

/-- `aesCrypt(·, key, iv, 'encrypt')` as the total function it is (the
encrypt branch never rejects): empty buffers short-circuit, anything else is
ciphered. -/
def aesEncryptBuf (data : List Nat) (key iv : Nat) : List Nat :=
  if data.length < 1 then [] else gcmEncrypt key iv data

/-- The encrypt branch of `aesCrypt` computes `aesEncryptBuf`. -/
theorem aesCrypt_encrypt_eq (data : List Nat) (key iv : Nat) :
    aesCrypt data key iv "encrypt" = .ok (aesEncryptBuf data key iv) := by
  unfold aesCrypt aesEncryptBuf
  by_cases h : data.length < 1
  · rw [if_pos h, if_pos h]
  · rw [if_neg h, if_neg h, if_pos (by decide)]

/-! ## `convertToEncryptedFile` (src/unnamed/part_000, lines 136-168)

```ts
const chunkSize = 32 * Math.pow(1024, 2)
const details = { name, lastModified, type, size }
const detailsBuf = Buffer.from(JSON.stringify(details))
const encryptedArray: Buffer[] = [
  Buffer.from((detailsBuf.length + 8).toString().padStart(8, '0')),
  await aesCrypt(detailsBuf, key, iv, 'encrypt')
]
for (let i = 0; i < workingFile.size; i += chunkSize) {
  const bufChunk = Buffer.from(await workingFile.slice(i, i + chunkSize).arrayBuffer())
  encryptedArray.push(
    Buffer.from((bufChunk.length + 8).toString().padStart(8, '0')),
    await aesCrypt(bufChunk, key, iv, 'encrypt')
  )
}
const finalName = `...hashAndHex(details.name + Date.now().toString())....jkl`
return new File(abArray, finalName, { type: 'text/plain' })
```

The result is modelled as the `encryptedArray` list of buffers (the returned
`File`'s content is their concatenation) together with the derived name;
`now` stands for `Date.now()`. -/

/-- Embedding of `convertToEncryptedFile`: the list of buffers making up the
envelope (alternating length header and ciphertext) and the derived name. -/
def convertToEncryptedFile (workingFile : JsFile) (key iv : Nat) (now : Nat) :
    List (List Nat) × String :=
  let detailsBuf := strBytes (stringifyDetails workingFile)
  let encryptedArray :=
    [pad8 (detailsBuf.length + 8), aesEncryptBuf detailsBuf key iv] ++
      (chunksOf workingFile.content).flatMap fun bufChunk =>
        [pad8 (bufChunk.length + 8), aesEncryptBuf bufChunk key iv]
  (encryptedArray, hashAndHex (workingFile.name ++ Nat.repr now) ++ ".jkl")

/-- A frame of the envelope is one header/ciphertext pair, so the envelope's
frame count is half the buffer count of `encryptedArray`. -/
def envelopeFrameCount (encryptedArray : List (List Nat)) : Nat :=
  encryptedArray.length / 2

/-! ### Frame-count arithmetic -/

theorem chunksOfF_length :
    ∀ (fuel : Nat) (l : List Nat), l.length ≤ fuel →
      (chunksOfF fuel l).length = (l.length + chunkSize - 1) / chunkSize := by
  have hc : chunkSize = 33554432 := rfl
  intro fuel
  induction fuel with
  | zero =>
    intro l hl
    have h0 : l = [] := List.eq_nil_of_length_eq_zero (by omega)
    subst h0
    simp only [chunksOfF, List.length_nil, hc]
  | succ n ih =>
    intro l hl
    match l with
    | [] => simp only [chunksOfF, List.length_nil, hc]
    | x :: xs =>
      have hdrop : ((x :: xs).drop chunkSize).length = (x :: xs).length - chunkSize := by
        simp
      have ihd := ih ((x :: xs).drop chunkSize)
        (by rw [hdrop]; simp only [List.length_cons] at hl ⊢; omega)
      simp only [chunksOfF, List.length_cons]
      rw [ihd, hdrop]
      simp only [List.length_cons, hc]
      omega

theorem chunksOf_length (l : List Nat) :
    (chunksOf l).length = (l.length + chunkSize - 1) / chunkSize :=
  chunksOfF_length l.length l le_rfl

/-! ## Minimal model of `JSON.parse` for the decoder

`convertFromEncryptedFile` ends with `JSON.parse(detailsBuf.toString())`.
`JSON.parse` is a JS builtin; it is modelled here by a parser for flat JSON
objects whose values are escape-free strings or decimal numbers — the exact
shapes appearing in this development.  The model is a strict
under-approximation of `JSON.parse`: every input it accepts is accepted by
`JSON.parse` with the same meaning (no whitespace skipping, no escapes, no
nesting), and it rejects anything else. -/

/-- A JSON value of the minimal grammar. -/
inductive JsonVal where
  | str : String → JsonVal
  | num : Nat → JsonVal
  deriving Repr, DecidableEq

/-- A character allowed inside a JSON string without escaping. -/
def jsonStringOk (c : Char) : Bool :=
  32 ≤ c.toNat && c ≠ '"' && c ≠ '\\'

/-- Scan a JSON string body after its opening quote; returns the content and
the rest after the closing quote. -/
def scanJsonString : List Char → Option (List Char × List Char)
  | [] => none
  | c :: rest =>
    if c = '"' then some ([], rest)
    else if jsonStringOk c then
      match scanJsonString rest with
      | some (s, r) => some (c :: s, r)
      | none => none
    else none

/-- Decimal digits to their value. -/
def digitsToNat (ds : List Char) : Nat :=
  ds.foldl (fun a c => a * 10 + (c.toNat - 48)) 0

/-- Parse one JSON value (string or number) of the minimal grammar. -/
def parseJsonVal (cs : List Char) : Option (JsonVal × List Char) :=
  match cs with
  | '"' :: rest =>
    match scanJsonString rest with
    | some (s, r) => some (.str (String.mk s), r)
    | none => none
  | _ =>
    match cs.span (·.isDigit) with
    | (ds, r) => if ds = [] then none else some (.num (digitsToNat ds), r)

/-- Parse the members of a JSON object after its opening brace, up to and
including the closing brace. -/
def parseJsonPairs : Nat → List Char → Option (List (String × JsonVal) × List Char)
  | 0, _ => none
  | fuel + 1, cs =>
    match cs with
    | '"' :: rest =>
      match scanJsonString rest with
      | none => none
      | some (k, r1) =>
        match r1 with
        | ':' :: r2 =>
          match parseJsonVal r2 with
          | none => none
          | some (v, r3) =>
            match r3 with
            | ',' :: r4 =>
              match parseJsonPairs fuel r4 with
              | none => none
              | some (ps, r) => some ((String.mk k, v) :: ps, r)
            | '}' :: r4 => some ([(String.mk k, v)], r4)
            | _ => none
        | _ => none
    | _ => none

/-- `JSON.parse` on a whole input, restricted to the minimal object
grammar. -/
def jsonParseObj (cs : List Char) : Option (List (String × JsonVal)) :=
  match cs with
  | '{' :: '}' :: [] => some []
  | '{' :: rest =>
    match parseJsonPairs (rest.length + 1) rest with
    | some (ps, []) => some ps
    | _ => none
  | _ => none

/-- Property lookup on a parsed JS object (later duplicate keys overwrite
earlier ones, as in a JS object literal). -/
def jsonLookup (ps : List (String × JsonVal)) (k : String) : Option JsonVal :=
  (ps.reverse.find? (fun p => p.1 = k)).map Prod.snd

/-- JS `String(·)` of a JSON value, as used when a value becomes a `File`
name. -/
def jsValToString : JsonVal → String
  | .str s => s
  | .num n => Nat.repr n

/-- `new File(parts, details.name, ...)`: a missing `name` property is
`undefined`, which the `File` constructor stringifies to `"undefined"`. -/
def detailsName (ps : List (String × JsonVal)) : String :=
  match jsonLookup ps "name" with
  | some v => jsValToString v
  | none => "undefined"

/-! ## `convertFromEncryptedFile` (src/unnamed/part_000, lines 177-204)

```ts
let detailsBuf = Buffer.from('')
const bufParts: Buffer[] = []
for (let i = 0; i < source.length; ) {
  const offset = i + 8
  const segSize = Number(source.slice(i, offset).toString())
  const last = offset + segSize
  const segment = source.slice(offset, last)

  await aesCrypt(segment, key, iv, 'decrypt')
  if (i === 0) {
    detailsBuf = segment
  } else {
    bufParts.push(segment)
  }
  i = last
}
const details = JSON.parse(detailsBuf.toString())
return new File(abArray, details.name, details)
```

Note the loop `await`s the decryption of each segment but discards its
result: a decryption failure rejects the promise, but on success the
still-encrypted `segment` is what is stored.  When a length header is not
numeric, `segSize` is `NaN`, so `last` is `NaN`, `source.slice(offset, NaN)`
is empty (`NaN` coerces to `0`), and `i = NaN` ends the loop, since
`NaN < source.length` is false.  Fuel-based structural recursion (each
iteration advances `i` by at least 8, so `source.length + 1` fuel always
suffices). -/

/-- The decoder's frame walk, returning `detailsBuf` and `bufParts`. -/
def decodeLoopF (key iv : Nat) (source : List Nat) :
    Nat → Nat → List Nat → List (List Nat) →
      Except String (List Nat × List (List Nat))
  | 0, _, detailsBuf, bufParts => .ok (detailsBuf, bufParts)
  | fuel + 1, i, detailsBuf, bufParts =>
    if i < source.length then
      let header := (source.drop i).take 8
      match jsNumberBytes header with
      | none =>
        if i = 0 then .ok ([], bufParts)
        else .ok (detailsBuf, bufParts ++ [[]])
      | some segSize =>
        let segment := (source.drop (i + 8)).take segSize
        match aesCrypt segment key iv "decrypt" with
        | .error e => .error e
        | .ok _ =>
          if i = 0 then
            decodeLoopF key iv source fuel (i + 8 + segSize) segment bufParts
          else
            decodeLoopF key iv source fuel (i + 8 + segSize) detailsBuf
              (bufParts ++ [segment])
    else .ok (detailsBuf, bufParts)

/-- The decoded result: the `File` the decoder builds — its name, its body
parts (whose concatenation is the file content) and the parsed details
record. -/
structure DecodedFile where
  name : String
  parts : List (List Nat)
  details : List (String × JsonVal)
  deriving Repr, DecidableEq

/-- Embedding of `convertFromEncryptedFile`. -/
def convertFromEncryptedFile (source : List Nat) (key iv : Nat) :
    Except String DecodedFile :=
  match decodeLoopF key iv source (source.length + 1) 0 [] [] with
  | .error e => .error e
  | .ok (detailsBuf, bufParts) =>
    match jsonParseObj (bytesToChars detailsBuf) with
    | none => .error "SyntaxError"
    | some details => .ok ⟨detailsName details, bufParts, details⟩

/-! ## Concrete envelopes exercising the decoder

`craftSeg` is a 48-byte frame payload that is a valid ciphertext under
`(key, iv) = (212, 0)` (its trailing 16 bytes are the correct authentication
tag for its first 32 bytes) and whose raw bytes also happen to spell the JSON
text `{"a":"AAAAAAAAAAmlkjihgfedcba` zaaaaaaaaaaaaaa"}` — the kind of frame a
key holder can produce deliberately (with a real cipher, by searching over
plaintexts until the tag bytes complete the JSON text). -/

/-- A valid ciphertext for `(212, 0)` whose bytes are themselves JSON text. -/
def craftSeg : List Nat :=
  [123, 34, 97, 34, 58, 34] ++ List.replicate 10 65 ++
    [109, 108, 107, 106, 105, 104, 103, 102, 101, 100, 99, 98, 97, 96, 32, 122] ++
    List.replicate 14 97 ++ [34, 125]

/-- The plaintext of the single content frame of `c1Envelope`. -/
def c1Pt : List Nat := [1, 2, 3]

/-- The ciphertext of the single content frame of `c1Envelope`. -/
def c1Ct : List Nat := gcmEncrypt 212 0 c1Pt

/-- A two-frame envelope for `(212, 0)`: the metadata frame `craftSeg`, then
one genuine content frame encrypting `[1, 2, 3]`, each preceded by a header
the decoder's walk reads as the frame's byte span. -/
def c1Envelope : List Nat :=
  strBytes "00000048" ++ craftSeg ++ pad8 c1Ct.length ++ c1Ct

/-- An envelope whose second length header is the non-numeric `"XXXXXXXX"`. -/
def c3Envelope : List Nat :=
  strBytes "00000048" ++ craftSeg ++ List.replicate 8 88

deriving instance DecidableEq for Except

/-- C1 (code_bug): `convertFromEncryptedFile` is specified to reassemble the
decrypted plaintext of the content frames, but the loop discards the result
of `aesCrypt(segment, key, iv, 'decrypt')` and stores the still-encrypted
`segment`.  On the concrete envelope `c1Envelope` the decode succeeds and the
output body is exactly the still-encrypted frame `c1Ct`, not its plaintext
`[1, 2, 3]`, and the metadata record is parsed from the raw (encrypted)
first-frame bytes. -/
theorem convertFromEncryptedFile_outputs_ciphertext :
    (convertFromEncryptedFile c1Envelope 212 0).map (fun f => f.parts) =
        .ok [c1Ct] ∧
      gcmDecrypt 212 0 c1Ct = .ok c1Pt ∧ c1Ct ≠ c1Pt := by
  decide

/-- C3 (code_bug): the decoder is specified to reject malformed envelopes
(`EnvelopeFormatError`), but it validates nothing: on `c3Envelope`, whose
second 8-byte length header `"XXXXXXXX"` is non-numeric, the walk silently
ends (the `NaN` loop counter) and `convertFromEncryptedFile` returns a
successfully decoded `File` instead of raising an error. -/
theorem convertFromEncryptedFile_accepts_malformed :
    (convertFromEncryptedFile c3Envelope 212 0).isOk = true ∧
      (c3Envelope.drop 56).take 8 = List.replicate 8 88 ∧
      jsNumberBytes (List.replicate 8 88) = none := by
  decide

/-- The 1-byte file of the C2 failing input. -/
def c2File : JsFile := ⟨"a", 0, "", [7]⟩

/-- The `encryptedArray` the encoder builds for `c2File` under `(212, 0)`. -/
def c2Arr : List (List Nat) := (convertToEncryptedFile c2File 212 0 0).1

/-- C2 (code_bug): every length header written by `convertToEncryptedFile` is
computed from the plaintext (`detailsBuf.length + 8`, `bufChunk.length + 8`),
not from the ciphertext it precedes: for the 1-byte file
`{name: "a", lastModified: 0, type: "", size: 1}` the two headers hold 56 and
9 while the ciphertexts they describe are 64 and 17 bytes long (AES-GCM adds
a 16-byte tag), so the header value is `ciphertext length - 8`, not the
specified `ciphertext length + 8`. -/
theorem convertToEncryptedFile_header_mismatch :
    jsNumberBytes (c2Arr.getD 0 []) = some 56 ∧ (c2Arr.getD 1 []).length = 64 ∧
      jsNumberBytes (c2Arr.getD 2 []) = some 9 ∧ (c2Arr.getD 3 []).length = 17 ∧
      c2Arr.length = 4 ∧ (56 : Nat) ≠ 64 + 8 ∧ (9 : Nat) ≠ 17 + 8 := by
  decide

/-- C4 (confirmed): `aesCrypt` round-trips — decrypting the encryption of any
buffer under the same key and iv returns the original buffer (for the empty
buffer both directions short-circuit to empty). -/
theorem aesCrypt_roundTrip (b : List Nat) (key iv : Nat) :
    (aesCrypt b key iv "encrypt").bind (fun ct => aesCrypt ct key iv "decrypt") =
      .ok b := by
  match b with
  | [] => rfl
  | x :: xs =>
    rw [aesCrypt_encrypt_eq]
    show aesCrypt (aesEncryptBuf (x :: xs) key iv) key iv "decrypt" = .ok (x :: xs)
    unfold aesEncryptBuf
    rw [if_neg (by simp)]
    unfold aesCrypt
    rw [if_neg (by simp [gcmEncrypt_length]), if_neg (by decide)]
    exact gcmDecrypt_gcmEncrypt key iv (x :: xs)

/-- C8 (confirmed): for every key, iv and mode, `aesCrypt` on an empty buffer
returns an empty buffer, and (by the instrumented twin) does so without
invoking the underlying cipher. -/
theorem aesCrypt_empty_short_circuit (key iv : Nat) (mode : String) :
    aesCryptTraced [] key iv mode = (.ok [], 0) ∧
      aesCrypt [] key iv mode = .ok [] :=
  ⟨rfl, rfl⟩

/-- C10 (confirmed): `aesCrypt` never rejects its `mode` argument — any mode
whose lower-casing is not `"encrypt"` takes the decrypt branch on non-empty
input; no invalid-mode error exists. -/
theorem aesCrypt_mode_fallthrough (data : List Nat) (key iv : Nat)
    (mode : String) (hne : data ≠ []) (hmode : jsToLower mode ≠ "encrypt") :
    aesCrypt data key iv mode = gcmDecrypt key iv data := by
  unfold aesCrypt
  have hpos : 0 < data.length := List.length_pos.mpr hne
  rw [if_neg (by omega), if_neg hmode]

/-- Witness for C10 at the misspelled mode `"Decryptt"`. -/
theorem aesCrypt_mode_fallthrough_witness :
    aesCrypt [5] 1 2 "Decryptt" = gcmDecrypt 1 2 [5] :=
  aesCrypt_mode_fallthrough [5] 1 2 "Decryptt" (by decide) (by decide)

/-- Length of a flatMap producing two buffers (header and ciphertext) per
chunk. -/
theorem flatMap_pair_length {α β : Type} (f g : α → List β) (L : List α) :
    (L.flatMap fun c => [f c, g c]).length = 2 * L.length := by
  induction L with
  | nil => rfl
  | cons x xs ih =>
    simp only [List.flatMap_cons, List.length_append, List.length_cons,
      List.length_nil, ih]
    omega

/-- C5 (confirmed): the envelope built by `convertToEncryptedFile` for a file
of size `s` has exactly `ceil(s / 32MiB) + 1` frames — one metadata frame
plus one per 32 MiB chunk; for `s = 0` that is the single metadata frame. -/
theorem convertToEncryptedFile_frame_count (f : JsFile) (key iv now : Nat) :
    envelopeFrameCount (convertToEncryptedFile f key iv now).1 =
      (f.size + chunkSize - 1) / chunkSize + 1 := by
  unfold envelopeFrameCount convertToEncryptedFile
  simp only [List.length_append, List.length_cons, List.length_nil]
  rw [flatMap_pair_length]
  rw [chunksOf_length]
  show (2 + 2 * ((f.content.length + chunkSize - 1) / chunkSize)) / 2 = _
  unfold JsFile.size
  omega

/-! ## The wallet collaborator

The `IWalletHandler` surface the embedded functions use: the signer flag
(`traits`), the bech32 address (`getJackalAddress()`), and the asymmetric
ECIES primitives delegated to the external `eciesjs` collaborator, modelled
as opaque function fields.  Wrapped strings are modelled as `List Char`. -/

/-- The wallet surface consumed by the embedded code. -/
structure IWalletHandler where
  traits : Bool
  jackalAddress : String
  asymmetricDecrypt : List Char → List Nat
  asymmetricEncrypt : List Nat → String → List Char

/-! ## Key import/export and `stringToAes` (src/unnamed/part_000, lines 15-29
and 115-127)

```ts
export async function stringToAes (wallet, source) {
  if (source.indexOf('|') < 0) {
    throw new Error('stringToAes() : Invalid source string')
  }
  const parts = source.split('|')
  return {
    iv: wallet.asymmetricDecrypt(parts[0]),
    key: await importJackalKey(wallet.asymmetricDecrypt(parts[1]))
  }
}
```

A `CryptoKey` is modelled by its raw exported bytes, so
`exportJackalKey`/`importJackalKey` (which round-trip through
`subtle.exportKey('raw')`/`subtle.importKey('raw')`) are the identity on the
byte representation. -/

/-- `exportJackalKey`: a CryptoKey to its raw storable bytes. -/
def exportJackalKey (key : List Nat) : List Nat := key

/-- `importJackalKey`: raw bytes back to a CryptoKey. -/
def importJackalKey (rawExport : List Nat) : List Nat := rawExport

/-- The AES iv/key bundle (`IAesBundle`). -/
structure IAesBundle where
  iv : List Nat
  key : List Nat
  deriving Repr, DecidableEq

/-- Whether a character occurs in a string: `source.indexOf(sep) < 0` is
`hasSep sep source = false`. -/
def hasSep (sep : Char) : List Char → Bool
  | [] => false
  | c :: cs => c == sep || hasSep sep cs

/-- JS `String.prototype.split(sep)`: splits on every occurrence of the
separator. -/
def jsSplit (sep : Char) : List Char → List (List Char)
  | [] => [[]]
  | c :: rest =>
    match jsSplit sep rest with
    | [] => [[]]
    | seg :: segs =>
      if c == sep then [] :: seg :: segs else (c :: seg) :: segs

/-- `aesToString` (lines 98-107): wraps iv and exported key independently
under the recipient's public key, joined with the pipe delimiter. -/
def aesToString (wallet : IWalletHandler) (pubKey : String) (aes : IAesBundle) :
    List Char :=
  wallet.asymmetricEncrypt aes.iv pubKey ++ '|' ::
    wallet.asymmetricEncrypt (exportJackalKey aes.key) pubKey

/-- Embedding of `stringToAes`. -/
def stringToAes (wallet : IWalletHandler) (source : List Char) :
    Except String IAesBundle :=
  if hasSep '|' source = false then
    .error "stringToAes() : Invalid source string"
  else
    let parts := jsSplit '|' source
    .ok ⟨wallet.asymmetricDecrypt (parts.getD 0 []),
      importJackalKey (wallet.asymmetricDecrypt (parts.getD 1 []))⟩

/-! ### Split lemmas -/

theorem jsSplit_ne_nil (sep : Char) (s : List Char) : jsSplit sep s ≠ [] := by
  cases s with
  | nil => simp [jsSplit]
  | cons c cs =>
    rw [jsSplit]
    cases h : jsSplit sep cs with
    | nil => simp
    | cons seg segs =>
      by_cases hc : c == sep
      · simp [hc]
      · simp [hc]

theorem jsSplit_no_sep (sep : Char) (s : List Char)
    (h : hasSep sep s = false) : jsSplit sep s = [s] := by
  induction s with
  | nil => rfl
  | cons c cs ih =>
    rw [hasSep] at h
    rw [Bool.or_eq_false_iff] at h
    rw [jsSplit, ih h.2]
    dsimp only
    rw [if_neg (by simp [h.1])]

theorem jsSplit_append (sep : Char) (a b : List Char)
    (ha : hasSep sep a = false) :
    jsSplit sep (a ++ sep :: b) = a :: jsSplit sep b := by
  induction a with
  | nil =>
    rw [List.nil_append, jsSplit]
    cases h : jsSplit sep b with
    | nil => exact absurd h (jsSplit_ne_nil sep b)
    | cons seg segs => simp
  | cons c cs ih =>
    rw [hasSep] at ha
    rw [Bool.or_eq_false_iff] at ha
    rw [List.cons_append, jsSplit, ih ha.2]
    dsimp only
    rw [if_neg (by simp [ha.1])]

theorem hasSep_append_cons (sep : Char) (a b : List Char) :
    hasSep sep (a ++ sep :: b) = true := by
  induction a with
  | nil => simp [hasSep]
  | cons c cs ih => simp [hasSep, ih]

/-- The wallet of the key-wrap scenarios: decryption is a concrete injective
stand-in (the length of the wrapped text). -/
def c7Wallet : IWalletHandler :=
  ⟨true, "jkl1alice", fun s => [s.length], fun b _ => b.map Char.ofNat⟩

/-- C7 (counterexample): `stringToAes` does not split on the *first*
delimiter and decrypt each half: on `"a|b|c"` the claim's halves are `"a"`
and `"b|c"`, but the code splits on every `'|'` and decrypts `parts[1]`,
i.e. `"b"`, whose decryption differs from that of `"b|c"`. -/
theorem stringToAes_not_first_split :
    stringToAes c7Wallet ['a', '|', 'b', '|', 'c'] =
        .ok ⟨c7Wallet.asymmetricDecrypt ['a'],
          importJackalKey (c7Wallet.asymmetricDecrypt ['b'])⟩ ∧
      c7Wallet.asymmetricDecrypt ['b'] ≠
        c7Wallet.asymmetricDecrypt ['b', '|', 'c'] := by
  constructor
  · rfl
  · decide

/-- C7 (amended): `stringToAes` fails with the malformed-grant error iff the
string contains no `'|'`; it splits on every `'|'` and decrypts the first two
components — which for a string with exactly one delimiter are precisely the
two halves, decrypted independently. -/
theorem stringToAes_spec (w : IWalletHandler) (s a b : List Char)
    (ha : hasSep '|' a = false) (hb : hasSep '|' b = false) :
    ((stringToAes w s).isOk = true ↔ hasSep '|' s = true) ∧
      stringToAes w (a ++ '|' :: b) =
        .ok ⟨w.asymmetricDecrypt a, importJackalKey (w.asymmetricDecrypt b)⟩ := by
  constructor
  · unfold stringToAes
    cases h : hasSep '|' s with
    | false => simp [h, Except.isOk, Except.toBool]
    | true => simp [h, Except.isOk, Except.toBool]
  · unfold stringToAes
    rw [if_neg (by simp [hasSep_append_cons])]
    rw [jsSplit_append '|' a b ha, jsSplit_no_sep '|' b hb]
    rfl

/-- Witness for C7's amended statement on `"x|y"`. -/
theorem stringToAes_spec_witness :
    ((stringToAes c7Wallet ['x', '|', 'y']).isOk = true ↔
        hasSep '|' ['x', '|', 'y'] = true) ∧
      stringToAes c7Wallet (['x'] ++ '|' :: ['y']) =
        .ok ⟨c7Wallet.asymmetricDecrypt ['x'],
          importJackalKey (c7Wallet.asymmetricDecrypt ['y'])⟩ :=
  stringToAes_spec c7Wallet ['x', '|', 'y'] ['x'] ['y'] (by decide) (by decide)

/-! ## The folder tree model (src/src/classes/folderHandler.ts)

The `FolderHandler` object wraps an `IFolderFileFrame`
(`{ whoAmI, whereAmI, whoOwnsMe, dirChildren, fileChildren }`); its mutating
methods are embedded as functions from the frame (plus arguments) to the
updated frame together with the fallible record result, so that state
changes that happen before a throwing call are preserved, as they are on the
mutated JS object. -/

/-- Modelled from the spec: `IFileMeta` (the file-metadata interface, not
under src/) — per-file metadata attached to a folder node's `fileChildren`
map; the folder operations treat it as opaque. -/
structure IFileMeta where
  name : String
  size : Nat
  deriving Repr, DecidableEq

/-- The folder node frame (`IFolderFileFrame`); the JS object map
`fileChildren` is modelled as an association list in property order. -/
structure IFolderFileFrame where
  whoAmI : String
  whereAmI : String
  whoOwnsMe : String
  dirChildren : List String
  fileChildren : List (String × IFileMeta)
  deriving Repr, DecidableEq

/-- `IChildDirInfo`, the input of `trackNewFolder`. -/
structure IChildDirInfo where
  myName : String
  myParent : String
  myOwner : String
  deriving Repr, DecidableEq

/-- Modelled from the spec: `saveFileTreeEntry` (utils/compression, not under
src/) produces the chain-ready change record (`EncodeObject`) for a creator
address and a node's location and frame; the record is opaque to this
component and handed to the external transaction layer. -/
structure EncodeObject where
  creator : String
  parentPath : String
  name : String
  frame : IFolderFileFrame
  deriving Repr, DecidableEq

/-- Modelled from the spec: `signerNotEnabled` (utils/misc, not under src/)
builds the error message thrown when no signer is attached. -/
def signerNotEnabled (cls fn : String) : String :=
  cls ++ " - " ++ fn ++ ": signer not enabled"

/-- Modelled from the spec: `stripper` (utils/misc, not under src/)
sanitizes a child directory name; the spec describes no transformation of
child names, so it is modelled as the identity. -/
def stripper (s : String) : String := s

/-- `FolderHandler.trackNewFolder`: a fresh child frame with empty
children. -/
def trackNewFolder (dirInfo : IChildDirInfo) : IFolderFileFrame :=
  ⟨stripper dirInfo.myName, dirInfo.myParent, dirInfo.myOwner, [], []⟩

/-- `makeChildDirInfo`: this node's path as parent and owner as owner. -/
def makeChildDirInfo (fd : IFolderFileFrame) (childName : String) :
    IChildDirInfo :=
  ⟨stripper childName, fd.whereAmI ++ "/" ++ fd.whoAmI, fd.whoOwnsMe⟩

/-- `getForFiletree`: throws if the wallet has no signer, otherwise derives
the node's chain-ready change record via `saveFileTreeEntry`. -/
def getForFiletree (fd : IFolderFileFrame) (walletRef : IWalletHandler) :
    Except String EncodeObject :=
  if walletRef.traits = false then
    .error (signerNotEnabled "FolderHandler" "getForFiletree")
  else .ok ⟨walletRef.jackalAddress, fd.whereAmI, fd.whoAmI, fd⟩

/-- `[...new Set(list)]`: deduplication keeping first occurrences, in
insertion order (fuel-based structural recursion; `l.length` fuel always
suffices). -/
def jsSetDedupF : Nat → List String → List String
  | _, [] => []
  | 0, _ :: _ => []
  | fuel + 1, x :: xs => x :: jsSetDedupF fuel (xs.filter (fun y => !(y == x)))

/-- `[...new Set(list)]`. -/
def jsSetDedup (l : List String) : List String :=
  jsSetDedupF l.length l

/-- `Promise.all` over fallible record derivations: the first rejection
rejects the whole batch. -/
def mapExcept {α β : Type} (f : α → Except String β) : List α → Except String (List β)
  | [] => .ok []
  | x :: xs =>
    match f x with
    | .error e => .error e
    | .ok y =>
      match mapExcept f xs with
      | .error e => .error e
      | .ok ys => .ok (y :: ys)

/-- Embedding of `addChildDirs`: partitions the requested names against the
current child set, derives one record per *new name occurrence* (via a fresh
child handler), and—only when at least one name was new—appends the
deduplicated names and derives this node's own record from the mutated
frame. -/
def addChildDirs (fd : IFolderFileFrame) (childNames : List String)
    (walletRef : IWalletHandler) :
    IFolderFileFrame × Except String (List EncodeObject × List String) :=
  let existing := childNames.filter fun n => fd.dirChildren.contains n
  let more := childNames.filter fun n => !(fd.dirChildren.contains n)
  let handlers := more.map fun n => trackNewFolder (makeChildDirInfo fd n)
  match mapExcept (fun h => getForFiletree h walletRef) handlers with
  | .error e => (fd, .error e)
  | .ok encoded =>
    if 0 < more.length then
      let fd2 := { fd with dirChildren := jsSetDedup (fd.dirChildren ++ more) }
      match getForFiletree fd2 walletRef with
      | .error e => (fd2, .error e)
      | .ok own => (fd2, .ok (encoded ++ [own], existing))
    else (fd, .ok (encoded, existing))

/-- `{ ...this.folderDetails.fileChildren, ...newFiles }`: spread merge —
existing keys keep their position but take the new value, new keys are
appended in order. -/
def jsObjectMerge (a b : List (String × IFileMeta)) : List (String × IFileMeta) :=
  a.map (fun p =>
    (p.1, ((b.reverse.find? fun q => q.1 == p.1).map Prod.snd).getD p.2)) ++
    b.filter fun q => !(a.any fun p => p.1 == q.1)

/-- Embedding of `addChildFileReferences`: merges the new file metadata into
the map, then derives the node's record (the mutation persists even when the
derivation throws). -/
def addChildFileReferences (fd : IFolderFileFrame)
    (newFiles : List (String × IFileMeta)) (walletRef : IWalletHandler) :
    IFolderFileFrame × Except String EncodeObject :=
  let fd2 := { fd with fileChildren := jsObjectMerge fd.fileChildren newFiles }
  (fd2, getForFiletree fd2 walletRef)

/-- Embedding of `removeChildDirReferences`: filters the requested names out
of the child-directory set. -/
def removeChildDirReferences (fd : IFolderFileFrame) (toRemove : List String)
    (walletRef : IWalletHandler) :
    IFolderFileFrame × Except String EncodeObject :=
  let fd2 := { fd with
    dirChildren := fd.dirChildren.filter fun saved => !(toRemove.contains saved) }
  (fd2, getForFiletree fd2 walletRef)

/-- Embedding of `removeChildFileReferences`: deletes the requested keys from
the file map. -/
def removeChildFileReferences (fd : IFolderFileFrame) (toRemove : List String)
    (walletRef : IWalletHandler) :
    IFolderFileFrame × Except String EncodeObject :=
  let fd2 := { fd with
    fileChildren := fd.fileChildren.filter fun p => !(toRemove.contains p.1) }
  (fd2, getForFiletree fd2 walletRef)

/-- Embedding of `removeChildDirAndFileReferences`: both removals, then one
record. -/
def removeChildDirAndFileReferences (fd : IFolderFileFrame)
    (dirs files : List String) (walletRef : IWalletHandler) :
    IFolderFileFrame × Except String EncodeObject :=
  let fd2 := { fd with
    dirChildren := fd.dirChildren.filter fun saved => !(dirs.contains saved),
    fileChildren := fd.fileChildren.filter fun p => !(files.contains p.1) }
  (fd2, getForFiletree fd2 walletRef)

/-! ## The C6 concrete scenario and the C9 frame conditions -/

/-- The scenario node: `whoAmI="docs"`, `whereAmI="/home/alice"`,
`whoOwnsMe="alice"`, no children. -/
def c6Frame : IFolderFileFrame := ⟨"docs", "/home/alice", "alice", [], []⟩

/-- A signer-enabled wallet for the scenario. -/
def c6Wallet : IWalletHandler :=
  ⟨true, "jkl1alice", fun s => [s.length], fun b _ => b.map Char.ofNat⟩

/-- First call of the scenario: `addChildDirs(["reports","reports"])`. -/
def c6First : IFolderFileFrame × Except String (List EncodeObject × List String) :=
  addChildDirs c6Frame ["reports", "reports"] c6Wallet

/-- Second call of the scenario: `addChildDirs(["reports"])` on the mutated
node. -/
def c6Second : IFolderFileFrame × Except String (List EncodeObject × List String) :=
  addChildDirs c6First.1 ["reports"] c6Wallet

/-- The child frame created for `"reports"`. -/
def c6Child : IFolderFileFrame := ⟨"reports", "/home/alice/docs", "alice", [], []⟩

/-- The scenario node after the first call. -/
def c6FrameAfter : IFolderFileFrame :=
  ⟨"docs", "/home/alice", "alice", ["reports"], []⟩

/-- C6 (counterexample): the claim predicts exactly one child change record
plus the node's own record (two records) for
`addChildDirs(["reports","reports"])`, but the code partitions *occurrences*,
so the duplicated new name produces one child record per occurrence: three
records in total. -/
theorem addChildDirs_duplicate_occurrence_records :
    c6First.2.map (fun p => (p.1.length, p.2)) = .ok (3, []) ∧ (3 : Nat) ≠ 2 := by
  decide

/-- C6 (amended): the first call creates the single child name `"reports"`
(deduplicated in `dirChildren`) but emits one child change record per
requested occurrence — two identical `"reports"` records — plus this node's
own updated record; `existing` is empty.  The second call reports
`"reports"` as existing, adds no duplicate and emits no records. -/
theorem addChildDirs_scenario :
    c6First = (c6FrameAfter,
        .ok ([⟨"jkl1alice", "/home/alice/docs", "reports", c6Child⟩,
          ⟨"jkl1alice", "/home/alice/docs", "reports", c6Child⟩,
          ⟨"jkl1alice", "/home/alice", "docs", c6FrameAfter⟩], [])) ∧
      c6Second = (c6FrameAfter, .ok ([], ["reports"])) := by
  decide

/-- The identity triple of a folder frame. -/
def idFields (fd : IFolderFileFrame) : String × String × String :=
  (fd.whoAmI, fd.whereAmI, fd.whoOwnsMe)

/-- Inverting a successful record derivation: the record carries the frame it
was derived from. -/
theorem getForFiletree_ok {fd : IFolderFileFrame} {w : IWalletHandler}
    {e : EncodeObject} (h : getForFiletree fd w = .ok e) : e.frame = fd := by
  unfold getForFiletree at h
  split at h
  · cases h
  · injection h with h'
    subst h'
    rfl

/-- Members of a successful `Promise.all` batch come from members of the
input list. -/
theorem mapExcept_mem {α β : Type} (f : α → Except String β) :
    ∀ (l : List α) (ys : List β), mapExcept f l = .ok ys →
      ∀ y ∈ ys, ∃ x ∈ l, f x = .ok y := by
  intro l
  induction l with
  | nil =>
    intro ys h y hy
    unfold mapExcept at h
    injection h with h'
    subst h'
    cases hy
  | cons x xs ih =>
    intro ys h y hy
    unfold mapExcept at h
    cases hfx : f x with
    | error e => rw [hfx] at h; cases h
    | ok v =>
      rw [hfx] at h
      cases hrest : mapExcept f xs with
      | error e => rw [hrest] at h; cases h
      | ok vs =>
        rw [hrest] at h
        injection h with h'
        subst h'
        rcases List.mem_cons.mp hy with hv | hvs
        · exact ⟨x, List.mem_cons_self x xs, by rw [hfx, hv]⟩
        · obtain ⟨z, hz, hfz⟩ := ih vs hrest y hvs
          exact ⟨z, List.mem_cons_of_mem x hz, hfz⟩

/-- C9 (confirmed): every mutating operation of the folder handler leaves the
identity fields `whoAmI`, `whereAmI`, `whoOwnsMe` unchanged (only
`dirChildren`/`fileChildren` may change), and every change record returned by
`addChildDirs` — in particular each created child's record — carries a frame
owned by this node's owner. -/
theorem folder_mutations_identity (fd : IFolderFileFrame) (w : IWalletHandler)
    (names : List String) (files : List (String × IFileMeta))
    (dirs fs : List String) :
    idFields (addChildDirs fd names w).1 = idFields fd ∧
      idFields (addChildFileReferences fd files w).1 = idFields fd ∧
      idFields (removeChildDirReferences fd dirs w).1 = idFields fd ∧
      idFields (removeChildFileReferences fd fs w).1 = idFields fd ∧
      idFields (removeChildDirAndFileReferences fd dirs fs w).1 = idFields fd ∧
      ∀ encs ex, (addChildDirs fd names w).2 = .ok (encs, ex) →
        ∀ e ∈ encs, e.frame.whoOwnsMe = fd.whoOwnsMe := by
  refine ⟨?_, rfl, rfl, rfl, rfl, ?_⟩
  · unfold addChildDirs
    dsimp only
    split
    · rfl
    · split
      · split <;> rfl
      · rfl
  · intro encs ex h e he
    unfold addChildDirs at h
    dsimp only at h
    split at h
    · cases h
    · rename_i encoded hmap
      split at h
      · split at h
        · cases h
        · rename_i fd2 own hown
          injection h with h'
          injection h' with h1 h2
          subst h1
          rcases List.mem_append.mp he with hin | hsel
          · obtain ⟨hd, hhd, hfhd⟩ := mapExcept_mem _ _ encoded hmap e hin
            obtain ⟨n, _, hn⟩ := List.mem_map.mp hhd
            rw [getForFiletree_ok hfhd, ← hn]
            rfl
          · rw [List.mem_singleton.mp hsel, getForFiletree_ok hown]
      · injection h with h'
        injection h' with h1 h2
        subst h1
        obtain ⟨hd, hhd, hfhd⟩ := mapExcept_mem _ _ encoded hmap e he
        obtain ⟨n, _, hn⟩ := List.mem_map.mp hhd
        rw [getForFiletree_ok hfhd, ← hn]
        rfl

/-- The first record of `addChildDirs(["a"])` on the scenario node. -/
def c9Child : EncodeObject :=
  ⟨"jkl1alice", "/home/alice/docs", "a", ⟨"a", "/home/alice/docs", "alice", [], []⟩⟩

/-- The updated own record of `addChildDirs(["a"])` on the scenario node. -/
def c9Own : EncodeObject :=
  ⟨"jkl1alice", "/home/alice", "docs", ⟨"docs", "/home/alice", "alice", ["a"], []⟩⟩

/-- Witness for C9: on the concrete scenario node the returned child record
is owned by the node's owner. -/
theorem folder_mutations_identity_witness :
    c9Child.frame.whoOwnsMe = c6Frame.whoOwnsMe :=
  (folder_mutations_identity c6Frame c6Wallet ["a"] [] [] []).2.2.2.2.2
    [c9Child, c9Own] [] (by decide) c9Child (by decide)
